import Mathlib

/-!
Menu entries and hotkey letters (`crawl-ref/source/menu.h`).

A shallow embedding of the value types declared inline in `menu.h`:

* `menu_letter`, the cyclic `a-z, A-Z` hotkey generator;
* `MenuEntry`, one line of a menu, with its hotkey list and its
  selection quantity.

Conventions of the embedding.

* A C++ `char` is represented by its 8-bit pattern, a natural number taken
  modulo `256` wherever the source stores an `int` result back into a `char`.
* A C++ `int` is represented by an `Int`.  None of the embedded member
  functions performs arithmetic on an `int`, so no wrap-around can occur; every
  concrete value used below lies in the 32-bit range.
* A member function that mutates `*this` becomes a function returning the
  updated object; one that also returns a value returns a pair.
-/

namespace Menu

/-! ## `menu_letter` -/

/-- The struct `menu_letter`: a single `char`, held as its byte value. -/
structure menu_letter where
  letter : Nat
  deriving DecidableEq, Repr

namespace menu_letter

/-- Default constructor `menu_letter() : letter('a')`. -/
def ctor : menu_letter := ⟨'a'.toNat⟩

/-- Converting constructor `menu_letter(char c) : letter(c)`. -/
def ctor_char (c : Nat) : menu_letter := ⟨c⟩

/-- Conversion `operator char () const`. -/
def operator_char (m : menu_letter) : Nat := m.letter

/-- Prefix `operator ++ ()`.  The sum `letter + 1` is computed as an `int` and
stored back into the `char` field, hence the reduction modulo `256`.  The
returned reference designates the updated object, which is the result here. -/
def operator_inc (m : menu_letter) : menu_letter :=
  { letter :=
      if m.letter = 'z'.toNat then 'A'.toNat
      else if m.letter = 'Z'.toNat then 'a'.toNat
      else (m.letter + 1) % 256 }

/-- Postfix `operator ++ (int)`: the first component is the returned copy, the
second the object after the call. -/
def operator_inc_int (m : menu_letter) : menu_letter × menu_letter :=
  let copy := m
  let m1 := operator_inc m
  (copy, m1)

/-- The characters returned by `n` successive postfix `++` calls on an object
that starts in state `m`, in call order. -/
def successive : Nat → menu_letter → List Nat
  | 0, _ => []
  | n + 1, m =>
    let r := operator_inc_int m
    operator_char r.1 :: successive n r.2

/-- Byte values of the characters of a string literal. -/
def codes (s : String) : List Nat := s.toList.map Char.toNat

end menu_letter

/-! ## `MenuEntry` -/

/-- The enumeration `MenuEntryLevel`. -/
inductive MenuEntryLevel where
  | MEL_NONE
  | MEL_TITLE
  | MEL_SUBTITLE
  | MEL_ITEM
  deriving DecidableEq, Repr

/-- The colour constants `LIGHTGREY`, `BLUE` and `WHITE` used by the
`MenuEntry` constructor.  They are defined in `defines.h`, outside the embedded
header, so the embedding takes their values as a parameter. -/
structure Colours where
  LIGHTGREY : Int
  BLUE : Int
  WHITE : Int
  deriving DecidableEq, Repr

/-- The struct `MenuEntry`.  `text` is the byte string, `hotkeys` the
`std::vector<int>` in index order, and `data` the address held by the untyped
pointer (`0` for `NULL`). -/
structure MenuEntry where
  text : List Nat
  quantity : Int
  selected_qty : Int
  colour : Int
  hotkeys : List Int
  level : MenuEntryLevel
  data : Nat
  deriving DecidableEq, Repr

namespace MenuEntry

/-- The constructor `MenuEntry(txt, lev, qty, hotk)`: the member initialisers
followed by the constructor body. -/
def ctor (cols : Colours) (txt : List Nat) (lev : MenuEntryLevel) (qty : Int)
    (hotk : Int) : MenuEntry :=
  let e0 : MenuEntry :=
    { text := txt, quantity := qty, selected_qty := 0, colour := -1,
      hotkeys := [], level := lev, data := 0 }
  let e1 : MenuEntry :=
    { e0 with
      colour :=
        if lev = MenuEntryLevel.MEL_ITEM then cols.LIGHTGREY
        else if lev = MenuEntryLevel.MEL_SUBTITLE then cols.BLUE
        else cols.WHITE }
  if hotk ≠ 0 then { e1 with hotkeys := e1.hotkeys ++ [hotk] } else e1

/-- The constructor called with all its default arguments:
`MenuEntry("", MEL_ITEM, 0, 0)`. -/
def ctor_default (cols : Colours) : MenuEntry :=
  ctor cols [] MenuEntryLevel.MEL_ITEM 0 0

/-- Member `is_hotkey`: `std::find` yields the position of the first element
equal to `key`, or the end position `hotkeys.size()` when there is none; the
result says whether that position differs from the end. -/
def is_hotkey (e : MenuEntry) (key : Int) : Bool :=
  decide (List.indexOf key e.hotkeys ≠ e.hotkeys.length)

/-- Member `add_hotkey`. -/
def add_hotkey (e : MenuEntry) (key : Int) : MenuEntry :=
  if key ≠ 0 ∧ e.is_hotkey key = false then { e with hotkeys := e.hotkeys ++ [key] }
  else e

/-- Member `is_primary_hotkey`. -/
def is_primary_hotkey (e : MenuEntry) (key : Int) : Bool :=
  if h : e.hotkeys.length ≠ 0 then
    decide (e.hotkeys.get ⟨0, Nat.pos_of_ne_zero h⟩ = key)
  else false

/-- Member `selected`: `selected_qty > 0 && quantity`, the `int` operand
`quantity` being converted to `bool` by comparison with zero. -/
def selected (e : MenuEntry) : Bool :=
  decide (e.selected_qty > 0) && decide (e.quantity ≠ 0)

/-- Member `select(qty)`. -/
def select (e : MenuEntry) (qty : Int) : MenuEntry :=
  if e.selected then { e with selected_qty := 0 }
  else if e.quantity ≠ 0 then
    { e with selected_qty := if qty = -1 then e.quantity else qty }
  else e

/-- Default value `-1` of the argument of `select`, meaning the whole
quantity. -/
def select_default_qty : Int := -1

/-- A sequence of `add_hotkey` calls applied in order to an entry. -/
def add_hotkeys (e : MenuEntry) (keys : List Int) : MenuEntry :=
  keys.foldl add_hotkey e

/-- A sequence of `select` calls applied in order to an entry. -/
def selects (e : MenuEntry) (qtys : List Int) : MenuEntry :=
  qtys.foldl select e

/-- The C string designated by a character array: the bytes before the first
NUL byte. -/
def c_string (buf : List Nat) : List Nat :=
  buf.takeWhile (fun b => decide (b ≠ 0))

/-- The pointer `text.c_str()` read as a C string, as the `%s` conversion does:
the bytes of the `std::string` before its first NUL byte. -/
def c_str (text : List Nat) : List Nat :=
  c_string text

/-- The conversion `%c` applied to an `int` argument: the argument converted to
`unsigned char`. -/
def format_c (c : Int) : Nat :=
  (c % 256).toNat

/-- The call `snprintf(buf, size, "%c - %s", c, s)` with `size > 0`: the
contents of `buf` up to its terminating NUL, that is the formatted output cut
to at most `size - 1` bytes, followed by the NUL byte. -/
def snprintf_c_s (size : Nat) (c : Int) (s : List Nat) : List Nat :=
  (format_c c :: (menu_letter.codes " - " ++ s)).take (size - 1) ++ [0]

/-- Member `get_text`, with its local buffer `char buf[300]`. -/
def get_text (e : MenuEntry) : List Nat :=
  if h : e.level = MenuEntryLevel.MEL_ITEM ∧ e.hotkeys.length ≠ 0 then
    let buf := snprintf_c_s 300 (e.hotkeys.get ⟨0, Nat.pos_of_ne_zero h.2⟩) (c_str e.text)
    c_string buf
  else
    (if e.level = MenuEntryLevel.MEL_SUBTITLE then menu_letter.codes " "
      else if e.level = MenuEntryLevel.MEL_ITEM then menu_letter.codes ""
      else menu_letter.codes "  ") ++ e.text

end MenuEntry

end Menu

/-! ## Theorems on `menu_letter` -/

namespace Menu

namespace menu_letter

/-- C1: the prefix `operator ++` sends every character of `'a'..'y'` and of
`'A'..'Y'` to its successor `c + 1`, sends `'z'` to `'A'`, and sends `'Z'` to
`'a'`. -/
theorem operator_inc_letters (c : Nat) :
    (('a'.toNat ≤ c ∧ c ≤ 'y'.toNat) ∨ ('A'.toNat ≤ c ∧ c ≤ 'Y'.toNat) →
        (operator_inc (ctor_char c)).letter = c + 1) ∧
      (operator_inc (ctor_char 'z'.toNat)).letter = 'A'.toNat ∧
      (operator_inc (ctor_char 'Z'.toNat)).letter = 'a'.toNat := by
  refine ⟨?_, by decide, by decide⟩
  intro h
  have ha : 'a'.toNat = 97 := by decide
  have hy : 'y'.toNat = 121 := by decide
  have hz : 'z'.toNat = 122 := by decide
  have hA : 'A'.toNat = 65 := by decide
  have hY : 'Y'.toNat = 89 := by decide
  have hZ : 'Z'.toNat = 90 := by decide
  rw [ha, hy, hA, hY] at h
  have h1 : c ≠ 122 := by omega
  have h2 : c ≠ 90 := by omega
  have h3 : (c + 1) % 256 = c + 1 := by omega
  simp only [operator_inc, ctor_char, hz, hZ, if_neg h1, if_neg h2, h3]

/-- Instance of C1 at the character `'q'`, whose successor is `'r'`. -/
theorem operator_inc_letters_witness :
    (('a'.toNat ≤ 'q'.toNat ∧ 'q'.toNat ≤ 'y'.toNat) ∨
        ('A'.toNat ≤ 'q'.toNat ∧ 'q'.toNat ≤ 'Y'.toNat)) ∧
      (operator_inc (ctor_char 'q'.toNat)).letter = 'q'.toNat + 1 :=
  ⟨by decide, (operator_inc_letters 'q'.toNat).1 (by decide)⟩

/-- C2: the postfix `operator ++ (int)` returns a `menu_letter` holding the
value the object had before the call, and leaves the object in the state the
prefix `operator ++` gives for that value. -/
theorem operator_inc_int_spec (c : menu_letter) :
    (operator_inc_int c).1 = c ∧ (operator_inc_int c).2 = operator_inc c :=
  ⟨rfl, rfl⟩

set_option maxRecDepth 100000 in
/-- C3: from a default-constructed `menu_letter`, the first 52 values returned
by successive postfix `++` calls are `'a'..'z'` then `'A'..'Z'`, pairwise
distinct, and the 53rd is `'a'` again; on each of these 52 letters the advance
step returns to the letter after exactly 52 applications and not sooner. -/
theorem successive_cycle :
    successive 52 ctor = codes "abcdefghijklmnopqrstuvwxyzABCDEFGHIJKLMNOPQRSTUVWXYZ" ∧
      (successive 52 ctor).Nodup ∧
      successive 53 ctor = successive 52 ctor ++ ['a'.toNat] ∧
      ∀ c ∈ codes "abcdefghijklmnopqrstuvwxyzABCDEFGHIJKLMNOPQRSTUVWXYZ",
        operator_inc^[52] (ctor_char c) = ctor_char c ∧
          ∀ k < 52, 0 < k → operator_inc^[k] (ctor_char c) ≠ ctor_char c := by
  refine ⟨by decide, by decide, by decide, ?_⟩
  decide

end menu_letter

end Menu

/-! ## Theorems on `MenuEntry` -/

namespace Menu

namespace MenuEntry

/-- The search of `is_hotkey` succeeds exactly on the members of the list. -/
theorem is_hotkey_iff_mem (e : MenuEntry) (key : Int) :
    e.is_hotkey key = true ↔ key ∈ e.hotkeys := by
  unfold is_hotkey
  rw [decide_eq_true_iff, ← List.indexOf_lt_length]
  have := @List.indexOf_le_length _ _ key e.hotkeys
  omega

/-- The search of `is_hotkey` fails exactly outside the list. -/
theorem is_hotkey_eq_false_iff (e : MenuEntry) (key : Int) :
    e.is_hotkey key = false ↔ key ∉ e.hotkeys := by
  rw [← is_hotkey_iff_mem, Bool.not_eq_true]

/-- Hotkey list after `add_hotkey` when the guard fails. -/
theorem add_hotkey_hotkeys_of_skip (e : MenuEntry) (key : Int)
    (h : key = 0 ∨ key ∈ e.hotkeys) : (e.add_hotkey key).hotkeys = e.hotkeys := by
  unfold add_hotkey
  rw [if_neg]
  rw [is_hotkey_eq_false_iff]
  tauto

/-- Hotkey list after `add_hotkey` when the guard holds. -/
theorem add_hotkey_hotkeys_of_new (e : MenuEntry) (key : Int)
    (h0 : key ≠ 0) (hn : key ∉ e.hotkeys) :
    (e.add_hotkey key).hotkeys = e.hotkeys ++ [key] := by
  unfold add_hotkey
  rw [if_pos]
  exact ⟨h0, (is_hotkey_eq_false_iff e key).2 hn⟩

/-- C4: `add_hotkey(key)` leaves the hotkey list unchanged when `key == 0` or
`key` is already in the list; otherwise the new list is the old one with `key`
appended as its last element. -/
theorem add_hotkey_spec (e : MenuEntry) (key : Int) :
    ((key = 0 ∨ key ∈ e.hotkeys) → (e.add_hotkey key).hotkeys = e.hotkeys) ∧
      (¬(key = 0 ∨ key ∈ e.hotkeys) →
        (e.add_hotkey key).hotkeys = e.hotkeys ++ [key]) := by
  refine ⟨add_hotkey_hotkeys_of_skip e key, fun h => ?_⟩
  rw [not_or] at h
  exact add_hotkey_hotkeys_of_new e key h.1 h.2

/-- Instances of C4 on the entry with hotkeys `['a']`: adding `'a'` again keeps
the list, adding `'b'` appends it. -/
theorem add_hotkey_spec_witness :
    ((97 : Int) = 0 ∨ (97 : Int) ∈
        (ctor ⟨7, 1, 15⟩ [] MenuEntryLevel.MEL_ITEM 1 97).hotkeys) ∧
      ((ctor ⟨7, 1, 15⟩ [] MenuEntryLevel.MEL_ITEM 1 97).add_hotkey 97).hotkeys = [97] ∧
      ¬((98 : Int) = 0 ∨ (98 : Int) ∈
        (ctor ⟨7, 1, 15⟩ [] MenuEntryLevel.MEL_ITEM 1 97).hotkeys) ∧
      ((ctor ⟨7, 1, 15⟩ [] MenuEntryLevel.MEL_ITEM 1 97).add_hotkey 98).hotkeys =
        [97, 98] :=
  ⟨by decide,
    (add_hotkey_spec (ctor ⟨7, 1, 15⟩ [] MenuEntryLevel.MEL_ITEM 1 97) 97).1 (by decide),
    by decide,
    (add_hotkey_spec (ctor ⟨7, 1, 15⟩ [] MenuEntryLevel.MEL_ITEM 1 97) 98).2 (by decide)⟩

/-- C5 as stated fails: on the default-constructed entry, whose hotkey list
does not contain `0`, two calls `add_hotkey(0)` leave no occurrence of `0`. -/
theorem add_hotkey_twice_zero :
    (0 : Int) ∉ (ctor_default ⟨7, 1, 15⟩).hotkeys ∧
      (((ctor_default ⟨7, 1, 15⟩).add_hotkey 0).add_hotkey 0).hotkeys.count 0 = 0 ∧
      (((ctor_default ⟨7, 1, 15⟩).add_hotkey 0).add_hotkey 0).hotkeys.count 0 ≠ 1 := by
  decide

/-- C5 amended: for a non-zero key `k` and an entry whose hotkey list does not
already contain `k`, after two calls `add_hotkey(k)` the hotkey list contains
exactly one occurrence of `k`. -/
theorem add_hotkey_twice_count (e : MenuEntry) (k : Int) (h0 : k ≠ 0)
    (hn : k ∉ e.hotkeys) :
    ((e.add_hotkey k).add_hotkey k).hotkeys.count k = 1 := by
  have h1 : (e.add_hotkey k).hotkeys = e.hotkeys ++ [k] :=
    add_hotkey_hotkeys_of_new e k h0 hn
  have h2 : ((e.add_hotkey k).add_hotkey k).hotkeys = e.hotkeys ++ [k] := by
    rw [add_hotkey_hotkeys_of_skip _ k (Or.inr (by rw [h1]; simp)), h1]
  rw [h2, List.count_append, List.count_eq_zero_of_not_mem hn]
  simp

/-- Instance of the amended C5: adding `'b'` twice to the entry with hotkeys
`['a']`. -/
theorem add_hotkey_twice_count_witness :
    (98 : Int) ≠ 0 ∧
      (98 : Int) ∉ (ctor ⟨7, 1, 15⟩ [] MenuEntryLevel.MEL_ITEM 1 97).hotkeys ∧
      ((((ctor ⟨7, 1, 15⟩ [] MenuEntryLevel.MEL_ITEM 1 97).add_hotkey 98).add_hotkey
        98).hotkeys.count 98 = 1) :=
  ⟨by decide, by decide,
    add_hotkey_twice_count (ctor ⟨7, 1, 15⟩ [] MenuEntryLevel.MEL_ITEM 1 97) 98
      (by decide) (by decide)⟩

/-- The test `is_primary_hotkey` compares `key` with the head of the list. -/
theorem is_primary_hotkey_iff_head (e : MenuEntry) (key : Int) :
    e.is_primary_hotkey key = true ↔ e.hotkeys.head? = some key := by
  obtain ⟨_, _, _, _, hs, _, _⟩ := e
  cases hs with
  | nil => simp [is_primary_hotkey]
  | cons a t => simp [is_primary_hotkey]

/-- One `add_hotkey` call keeps the head of a non-empty hotkey list. -/
theorem add_hotkey_head_of_ne_nil (e : MenuEntry) (key : Int)
    (h : e.hotkeys ≠ []) :
    (e.add_hotkey key).hotkeys ≠ [] ∧
      (e.add_hotkey key).hotkeys.head? = e.hotkeys.head? := by
  by_cases hk : key = 0 ∨ key ∈ e.hotkeys
  · rw [add_hotkey_hotkeys_of_skip e key hk]
    exact ⟨h, rfl⟩
  · rw [not_or] at hk
    rw [add_hotkey_hotkeys_of_new e key hk.1 hk.2]
    cases hl : e.hotkeys with
    | nil => exact absurd hl h
    | cons a t => simp

/-- A sequence of `add_hotkey` calls keeps the head of a non-empty hotkey
list. -/
theorem add_hotkeys_head_of_ne_nil (keys : List Int) :
    ∀ e : MenuEntry, e.hotkeys ≠ [] →
      (e.add_hotkeys keys).hotkeys.head? = e.hotkeys.head? := by
  induction keys with
  | nil => intro e _; rfl
  | cons x xs ih =>
    intro e h
    have hx := add_hotkey_head_of_ne_nil e x h
    show ((e.add_hotkey x).add_hotkeys xs).hotkeys.head? = _
    rw [ih _ hx.1, hx.2]

/-- Starting from an empty hotkey list, the head after a sequence of
`add_hotkey` calls is the first non-zero key of the sequence. -/
theorem add_hotkeys_head_of_nil (keys : List Int) :
    ∀ e : MenuEntry, e.hotkeys = [] →
      (e.add_hotkeys keys).hotkeys.head? = keys.find? (fun x => decide (x ≠ 0)) := by
  induction keys with
  | nil => intro e h; simp [add_hotkeys, h]
  | cons x xs ih =>
    intro e h
    show ((e.add_hotkey x).add_hotkeys xs).hotkeys.head? = _
    by_cases hx : x = 0
    · have h1 : (e.add_hotkey x).hotkeys = [] := by
        rw [add_hotkey_hotkeys_of_skip e x (Or.inl hx), h]
      rw [ih _ h1]
      simp [List.find?, hx]
    · have h1 : (e.add_hotkey x).hotkeys = [x] := by
        rw [add_hotkey_hotkeys_of_new e x hx (by simp [h]), h]
        rfl
      rw [add_hotkeys_head_of_ne_nil xs _ (by simp [h1]), h1]
      simp [List.find?, hx]

/-- The constructor called with `hotk = 0` gives an empty hotkey list. -/
theorem ctor_zero_hotkeys (cols : Colours) (txt : List Nat)
    (lev : MenuEntryLevel) (qty : Int) : (ctor cols txt lev qty 0).hotkeys = [] := by
  simp [ctor]

/-- C6: for an entry built by the constructor with `hotk = 0` followed by the
`add_hotkey` calls `keys`, `is_primary_hotkey(k)` is true exactly when `k` is
the first non-zero key of `keys`; it is false for every `k` when `keys` has no
non-zero key; and `is_primary_hotkey(k)` implies `is_hotkey(k)`. -/
theorem is_primary_hotkey_first_nonzero (cols : Colours) (txt : List Nat)
    (lev : MenuEntryLevel) (qty : Int) (keys : List Int) (k : Int) :
    (((ctor cols txt lev qty 0).add_hotkeys keys).is_primary_hotkey k = true ↔
        keys.find? (fun x => decide (x ≠ 0)) = some k) ∧
      ((∀ x ∈ keys, x = 0) →
        ((ctor cols txt lev qty 0).add_hotkeys keys).is_primary_hotkey k = false) ∧
      (((ctor cols txt lev qty 0).add_hotkeys keys).is_primary_hotkey k = true →
        ((ctor cols txt lev qty 0).add_hotkeys keys).is_hotkey k = true) := by
  have hhead := add_hotkeys_head_of_nil keys _ (ctor_zero_hotkeys cols txt lev qty)
  have hiff := is_primary_hotkey_iff_head ((ctor cols txt lev qty 0).add_hotkeys keys) k
  rw [hhead] at hiff
  refine ⟨hiff, fun hall => ?_, fun hp => ?_⟩
  · rw [← Bool.not_eq_true, hiff]
    intro hf
    have hm := List.mem_of_find?_eq_some hf
    have hk := List.find?_some hf
    simp only [decide_eq_true_eq] at hk
    exact hk (hall k hm)
  · rw [is_hotkey_iff_mem]
    rw [is_primary_hotkey_iff_head] at hp
    exact List.mem_of_mem_head? hp

/-- Instance of C6: after the calls `add_hotkey(0)`, `add_hotkey('b')`,
`add_hotkey('a')`, `add_hotkey('b')` on a fresh entry, `'b'` is the primary
hotkey and `'a'` is not; after only `add_hotkey(0)` there is none. -/
theorem is_primary_hotkey_first_nonzero_witness :
    ((ctor ⟨7, 1, 15⟩ [] MenuEntryLevel.MEL_ITEM 0 0).add_hotkeys
        [0, 98, 97, 98]).is_primary_hotkey 98 = true ∧
      ((ctor ⟨7, 1, 15⟩ [] MenuEntryLevel.MEL_ITEM 0 0).add_hotkeys
        [0, 98, 97, 98]).is_primary_hotkey 97 ≠ true ∧
      ((∀ x ∈ [(0 : Int)], x = 0) ∧
        ((ctor ⟨7, 1, 15⟩ [] MenuEntryLevel.MEL_ITEM 0 0).add_hotkeys
          [0]).is_primary_hotkey 98 = false) ∧
      ((ctor ⟨7, 1, 15⟩ [] MenuEntryLevel.MEL_ITEM 0 0).add_hotkeys
        [0, 98, 97, 98]).is_hotkey 98 = true :=
  ⟨(is_primary_hotkey_first_nonzero ⟨7, 1, 15⟩ [] MenuEntryLevel.MEL_ITEM 0
      [0, 98, 97, 98] 98).1.2 (by decide),
    fun h => absurd ((is_primary_hotkey_first_nonzero ⟨7, 1, 15⟩ []
      MenuEntryLevel.MEL_ITEM 0 [0, 98, 97, 98] 97).1.1 h) (by decide),
    ⟨by decide, (is_primary_hotkey_first_nonzero ⟨7, 1, 15⟩ []
      MenuEntryLevel.MEL_ITEM 0 [0] 98).2.1 (by decide)⟩,
    (is_primary_hotkey_first_nonzero ⟨7, 1, 15⟩ [] MenuEntryLevel.MEL_ITEM 0
      [0, 98, 97, 98] 98).2.2 (by decide)⟩

/-- The value of `selected` as a proposition on the two quantity fields. -/
theorem selected_iff (e : MenuEntry) :
    e.selected = true ↔ e.selected_qty > 0 ∧ e.quantity ≠ 0 := by
  simp [selected]

/-- The field `quantity` is not written by `select`. -/
theorem select_quantity (e : MenuEntry) (q : Int) :
    (e.select q).quantity = e.quantity := by
  unfold select
  split_ifs <;> rfl

/-- The field `selected_qty` after `select` on a selected entry. -/
theorem select_selected_qty_of_selected (e : MenuEntry) (q : Int)
    (h : e.selected = true) : (e.select q).selected_qty = 0 := by
  simp [select, h]

/-- The field `selected_qty` after `select` on an entry that is not selected
and has a non-zero quantity. -/
theorem select_selected_qty_of_not_selected (e : MenuEntry) (q : Int)
    (h : e.selected = false) (hq : e.quantity ≠ 0) :
    (e.select q).selected_qty = if q = -1 then e.quantity else q := by
  simp [select, h, hq]

/-- C7 as stated fails: the entry constructed with quantity `-1` and then
given `select(1)` has `selected_qty = 1 > 0` and a quantity that is not
positive, yet `selected()` returns true. -/
theorem selected_negative_quantity :
    ((ctor ⟨7, 1, 15⟩ [] MenuEntryLevel.MEL_ITEM (-1) 0).select 1).selected = true ∧
      ¬ (((ctor ⟨7, 1, 15⟩ [] MenuEntryLevel.MEL_ITEM (-1) 0).select 1).selected_qty > 0 ∧
        ((ctor ⟨7, 1, 15⟩ [] MenuEntryLevel.MEL_ITEM (-1) 0).select 1).quantity > 0) := by
  decide

/-- C7 amended: `selected()` returns true if and only if `selected_qty > 0` and
`quantity` is non-zero; for an entry whose quantity is not negative this is
`selected_qty > 0` and `quantity > 0`. -/
theorem selected_spec (e : MenuEntry) :
    (e.selected = true ↔ e.selected_qty > 0 ∧ e.quantity ≠ 0) ∧
      (0 ≤ e.quantity →
        (e.selected = true ↔ e.selected_qty > 0 ∧ e.quantity > 0)) := by
  refine ⟨selected_iff e, fun h => ?_⟩
  rw [selected_iff]
  constructor
  · rintro ⟨h1, h2⟩
    exact ⟨h1, by omega⟩
  · rintro ⟨h1, h2⟩
    exact ⟨h1, by omega⟩

/-- Instance of the amended C7: an entry of quantity `5` after `select(2)` has
a non-negative quantity, and is selected exactly when both fields are
positive. -/
theorem selected_spec_witness :
    0 ≤ ((ctor ⟨7, 1, 15⟩ [] MenuEntryLevel.MEL_ITEM 5 0).select 2).quantity ∧
      (((ctor ⟨7, 1, 15⟩ [] MenuEntryLevel.MEL_ITEM 5 0).select 2).selected = true ↔
        ((ctor ⟨7, 1, 15⟩ [] MenuEntryLevel.MEL_ITEM 5 0).select 2).selected_qty > 0 ∧
          ((ctor ⟨7, 1, 15⟩ [] MenuEntryLevel.MEL_ITEM 5 0).select 2).quantity > 0) :=
  ⟨by decide,
    (selected_spec ((ctor ⟨7, 1, 15⟩ [] MenuEntryLevel.MEL_ITEM 5 0).select 2)).2
      (by decide)⟩

/-- C8: if the entry is selected before the call, `select(q)` sets
`selected_qty` to `0`; otherwise, when `quantity` is non-zero, it sets
`selected_qty` to `q` if `q` is not the default `-1`, and to the `quantity`
field if it is.  In particular, for an unselected entry with `quantity > 0`
and `1 <= q <= quantity`, after `select(q)` the field `selected_qty` is `q`
and `selected()` is true. -/
theorem select_spec (e : MenuEntry) (q : Int) :
    (e.selected = true → (e.select q).selected_qty = 0) ∧
      (e.selected = false → e.quantity ≠ 0 → q ≠ select_default_qty →
        (e.select q).selected_qty = q) ∧
      (e.selected = false → e.quantity ≠ 0 → q = select_default_qty →
        (e.select q).selected_qty = e.quantity) ∧
      (e.selected = false → e.quantity > 0 → 1 ≤ q → q ≤ e.quantity →
        (e.select q).selected_qty = q ∧ (e.select q).selected = true) := by
  refine ⟨select_selected_qty_of_selected e q, ?_, ?_, ?_⟩
  · intro h hq hd
    rw [select_selected_qty_of_not_selected e q h hq,
      if_neg (show ¬ q = -1 from hd)]
  · intro h hq hd
    rw [select_selected_qty_of_not_selected e q h hq,
      if_pos (show q = -1 from hd)]
  · intro h hq h1 h2
    have hne : e.quantity ≠ 0 := by omega
    have hd : q ≠ -1 := by omega
    have hs : (e.select q).selected_qty = q := by
      rw [select_selected_qty_of_not_selected e q h hne, if_neg hd]
    refine ⟨hs, ?_⟩
    rw [selected_iff, hs, select_quantity]
    exact ⟨by omega, hne⟩

/-- Instance of C8: an unselected entry of quantity `5` given `select(2)` has
`selected_qty = 2` and is selected. -/
theorem select_spec_witness :
    (ctor ⟨7, 1, 15⟩ [] MenuEntryLevel.MEL_ITEM 5 0).selected = false ∧
      (ctor ⟨7, 1, 15⟩ [] MenuEntryLevel.MEL_ITEM 5 0).quantity > 0 ∧
      (1 : Int) ≤ 2 ∧ 2 ≤ (ctor ⟨7, 1, 15⟩ [] MenuEntryLevel.MEL_ITEM 5 0).quantity ∧
      ((ctor ⟨7, 1, 15⟩ [] MenuEntryLevel.MEL_ITEM 5 0).select 2).selected_qty = 2 ∧
      ((ctor ⟨7, 1, 15⟩ [] MenuEntryLevel.MEL_ITEM 5 0).select 2).selected = true :=
  ⟨by decide, by decide, by decide, by decide,
    (select_spec (ctor ⟨7, 1, 15⟩ [] MenuEntryLevel.MEL_ITEM 5 0) 2).2.2.2
      (by decide) (by decide) (by decide) (by decide)⟩

/-- C9: for an entry with `quantity > 0`, `select()` with the default argument
flips the selection status: `selected()` holds after the call if and only if it
did not hold before; two consecutive calls give back the original status. -/
theorem select_toggles (e : MenuEntry) (h : e.quantity > 0) :
    ((e.select select_default_qty).selected = true ↔ ¬ e.selected = true) ∧
      ((e.select select_default_qty).select select_default_qty).selected =
        e.selected := by
  have hne : e.quantity ≠ 0 := by omega
  have flip : ∀ x : MenuEntry, x.quantity > 0 →
      (x.select select_default_qty).selected = !x.selected := by
    intro x hx
    have hxne : x.quantity ≠ 0 := by omega
    cases hs : x.selected with
    | true =>
      have h0 := select_selected_qty_of_selected x select_default_qty hs
      simp [selected, h0]
    | false =>
      have h0 := select_selected_qty_of_not_selected x select_default_qty hs hxne
      rw [if_pos (show select_default_qty = -1 from rfl)] at h0
      simp [selected, h0, select_quantity, hxne, hx]
  constructor
  · rw [flip e h]
    cases e.selected <;> simp
  · rw [flip _ (by rw [select_quantity]; exact h), flip e h]
    cases e.selected <;> rfl

/-- Instance of C9 on an entry of quantity `3`. -/
theorem select_toggles_witness :
    (ctor ⟨7, 1, 15⟩ [] MenuEntryLevel.MEL_ITEM 3 0).quantity > 0 ∧
      (((ctor ⟨7, 1, 15⟩ [] MenuEntryLevel.MEL_ITEM 3 0).select
          select_default_qty).selected = true ↔
        ¬ (ctor ⟨7, 1, 15⟩ [] MenuEntryLevel.MEL_ITEM 3 0).selected = true) ∧
      (((ctor ⟨7, 1, 15⟩ [] MenuEntryLevel.MEL_ITEM 3 0).select
          select_default_qty).select select_default_qty).selected =
        (ctor ⟨7, 1, 15⟩ [] MenuEntryLevel.MEL_ITEM 3 0).selected :=
  ⟨by decide,
    select_toggles (ctor ⟨7, 1, 15⟩ [] MenuEntryLevel.MEL_ITEM 3 0) (by decide)⟩

/-- C10: for an entry with `quantity = 0`, whatever its `selected_qty` and
whatever the argument, `selected()` is false after `select`. -/
theorem select_zero_quantity (e : MenuEntry) (q : Int) (h : e.quantity = 0) :
    (e.select q).selected = false := by
  rw [← Bool.not_eq_true, selected_iff, select_quantity]
  exact fun hs => hs.2 h

/-- Instance of C10: an entry with `quantity = 0` whose `selected_qty` field
holds `4`, given `select(2)`. -/
theorem select_zero_quantity_witness :
    ({ (ctor ⟨7, 1, 15⟩ [] MenuEntryLevel.MEL_ITEM 0 0) with
        selected_qty := 4 } : MenuEntry).quantity = 0 ∧
      (({ (ctor ⟨7, 1, 15⟩ [] MenuEntryLevel.MEL_ITEM 0 0) with
        selected_qty := 4 } : MenuEntry).select 2).selected = false :=
  ⟨by decide,
    select_zero_quantity
      { (ctor ⟨7, 1, 15⟩ [] MenuEntryLevel.MEL_ITEM 0 0) with selected_qty := 4 } 2
      (by decide)⟩

/-- C11 as stated fails: on the unselected entry of quantity `5`, the explicit
amounts `7` (above the quantity) and `-3` (negative) are stored in
`selected_qty`, so `select` changes the entry. -/
theorem select_out_of_range_stored :
    ((7 : Int) ≠ select_default_qty ∧
        7 > (ctor ⟨7, 1, 15⟩ [] MenuEntryLevel.MEL_ITEM 5 0).quantity ∧
        ((ctor ⟨7, 1, 15⟩ [] MenuEntryLevel.MEL_ITEM 5 0).select 7).selected_qty = 7 ∧
        (ctor ⟨7, 1, 15⟩ [] MenuEntryLevel.MEL_ITEM 5 0).select 7 ≠
          ctor ⟨7, 1, 15⟩ [] MenuEntryLevel.MEL_ITEM 5 0) ∧
      ((-3 : Int) ≠ select_default_qty ∧ (-3 : Int) < 0 ∧
        ((ctor ⟨7, 1, 15⟩ [] MenuEntryLevel.MEL_ITEM 5 0).select (-3)).selected_qty = -3 ∧
        (ctor ⟨7, 1, 15⟩ [] MenuEntryLevel.MEL_ITEM 5 0).select (-3) ≠
          ctor ⟨7, 1, 15⟩ [] MenuEntryLevel.MEL_ITEM 5 0) := by
  decide

/-- C11 amended: `select` makes no range check.  For an explicitly given `q`
(not the default `-1`) with `q < 0` or `q > quantity`, `select(q)` clears
`selected_qty` to `0` on a selected entry and stores `q` in `selected_qty` on an
unselected entry of non-zero quantity; the entry is left unchanged exactly when
it is unselected and either its quantity is `0` or `selected_qty` already
equals `q`. -/
theorem select_out_of_range (e : MenuEntry) (q : Int)
    (hq : q ≠ select_default_qty) (hr : q < 0 ∨ q > e.quantity) :
    (e.selected = true → (e.select q).selected_qty = 0) ∧
      (e.selected = false → e.quantity ≠ 0 → (e.select q).selected_qty = q) ∧
      (e.select q = e ↔
        e.selected = false ∧ (e.quantity = 0 ∨ q = e.selected_qty)) := by
  have hq1 : ¬ q = -1 := hq
  refine ⟨select_selected_qty_of_selected e q, fun h hn => ?_, ?_⟩
  · rw [select_selected_qty_of_not_selected e q h hn, if_neg hq1]
  · obtain ⟨t, qn, sq, c, hs, l, d⟩ := e
    cases hsel : selected ⟨t, qn, sq, c, hs, l, d⟩ with
    | true =>
      have hpos := ((selected_iff _).1 hsel).1
      simp only [select, hsel, if_true]
      constructor
      · intro heq
        have h0 := congrArg MenuEntry.selected_qty heq
        simp only at h0 hpos
        omega
      · intro hf
        exact absurd hf.1 (by simp)
    | false =>
      by_cases hz : qn = 0
      · subst hz
        simp [select, hsel]
      · simp only [select, hsel, if_neg hq1]
        simp [hz]

/-- Instance of the amended C11: the unselected entry of quantity `5` given
`select(7)`. -/
theorem select_out_of_range_witness :
    (7 : Int) ≠ select_default_qty ∧
      ((7 : Int) < 0 ∨ 7 > (ctor ⟨7, 1, 15⟩ [] MenuEntryLevel.MEL_ITEM 5 0).quantity) ∧
      (ctor ⟨7, 1, 15⟩ [] MenuEntryLevel.MEL_ITEM 5 0).selected = false ∧
      (ctor ⟨7, 1, 15⟩ [] MenuEntryLevel.MEL_ITEM 5 0).quantity ≠ 0 ∧
      ((ctor ⟨7, 1, 15⟩ [] MenuEntryLevel.MEL_ITEM 5 0).select 7).selected_qty = 7 :=
  ⟨by decide, by decide, by decide, by decide,
    (select_out_of_range (ctor ⟨7, 1, 15⟩ [] MenuEntryLevel.MEL_ITEM 5 0) 7
      (by decide) (by decide)).2.1 (by decide) (by decide)⟩

/-- The constructor stores `qty` in `quantity` and `0` in `selected_qty`. -/
theorem ctor_quantities (cols : Colours) (txt : List Nat) (lev : MenuEntryLevel)
    (qty hotk : Int) :
    (ctor cols txt lev qty hotk).quantity = qty ∧
      (ctor cols txt lev qty hotk).selected_qty = 0 := by
  unfold ctor
  split_ifs <;> exact ⟨rfl, rfl⟩

/-- One `select` call with the default argument or an amount within
`[0, quantity]` keeps `selected_qty` within `[0, quantity]`. -/
theorem select_bound_step (e : MenuEntry) (q : Int)
    (h0 : 0 ≤ e.selected_qty) (h1 : e.selected_qty ≤ e.quantity)
    (hq : q = select_default_qty ∨ (0 ≤ q ∧ q ≤ e.quantity)) :
    0 ≤ (e.select q).selected_qty ∧ (e.select q).selected_qty ≤ e.quantity := by
  cases hs : e.selected with
  | true =>
    rw [select_selected_qty_of_selected e q hs]
    omega
  | false =>
    by_cases hz : e.quantity = 0
    · have hsame : e.select q = e := by simp [select, hs, hz]
      rw [hsame]
      exact ⟨h0, h1⟩
    · rw [select_selected_qty_of_not_selected e q hs hz]
      split_ifs with hd
      · omega
      · rcases hq with hq | hq
        · exact absurd hq hd
        · exact hq

/-- A sequence of such `select` calls keeps `selected_qty` within
`[0, quantity]` and does not change `quantity`. -/
theorem selects_bound (qs : List Int) :
    ∀ e : MenuEntry, 0 ≤ e.selected_qty → e.selected_qty ≤ e.quantity →
      (∀ q ∈ qs, q = select_default_qty ∨ (0 ≤ q ∧ q ≤ e.quantity)) →
      (e.selects qs).quantity = e.quantity ∧ 0 ≤ (e.selects qs).selected_qty ∧
        (e.selects qs).selected_qty ≤ e.quantity := by
  induction qs with
  | nil => intro e h0 h1 _; exact ⟨rfl, h0, h1⟩
  | cons x xs ih =>
    intro e h0 h1 hq
    have hx := select_bound_step e x h0 h1 (hq x (List.mem_cons_self x xs))
    have hqe := select_quantity e x
    have hrec := ih (e.select x) hx.1 (by rw [hqe]; exact hx.2)
      (fun q hm => by rw [hqe]; exact hq q (List.mem_cons_of_mem x hm))
    rw [hqe] at hrec
    exact hrec

/-- C12: the bound `0 <= selected_qty <= quantity` is an invariant.  The
constructor establishes it for every `qty >= 0`; `select(q)` preserves it
whenever `q` is the default `-1` or `0 <= q <= quantity`; hence it holds after
any sequence of such calls on a constructed entry. -/
theorem selected_qty_bound_invariant :
    (∀ (cols : Colours) (txt : List Nat) (lev : MenuEntryLevel) (qty hotk : Int),
        0 ≤ qty →
        0 ≤ (ctor cols txt lev qty hotk).selected_qty ∧
          (ctor cols txt lev qty hotk).selected_qty ≤
            (ctor cols txt lev qty hotk).quantity) ∧
      (∀ (e : MenuEntry) (q : Int),
        0 ≤ e.selected_qty → e.selected_qty ≤ e.quantity →
        (q = select_default_qty ∨ (0 ≤ q ∧ q ≤ e.quantity)) →
        0 ≤ (e.select q).selected_qty ∧
          (e.select q).selected_qty ≤ (e.select q).quantity) ∧
      (∀ (cols : Colours) (txt : List Nat) (lev : MenuEntryLevel) (qty hotk : Int)
          (qs : List Int),
        0 ≤ qty → (∀ q ∈ qs, q = select_default_qty ∨ (0 ≤ q ∧ q ≤ qty)) →
        0 ≤ ((ctor cols txt lev qty hotk).selects qs).selected_qty ∧
          ((ctor cols txt lev qty hotk).selects qs).selected_qty ≤
            ((ctor cols txt lev qty hotk).selects qs).quantity) := by
  refine ⟨?_, ?_, ?_⟩
  · intro cols txt lev qty hotk hqty
    obtain ⟨hq, hs⟩ := ctor_quantities cols txt lev qty hotk
    rw [hq, hs]
    exact ⟨le_refl 0, hqty⟩
  · intro e q h0 h1 hq
    rw [select_quantity]
    exact select_bound_step e q h0 h1 hq
  · intro cols txt lev qty hotk qs hqty hqs
    obtain ⟨hq, hs⟩ := ctor_quantities cols txt lev qty hotk
    have hb := selects_bound qs (ctor cols txt lev qty hotk)
      (by rw [hs]) (by rw [hs, hq]; exact hqty) (by rw [hq]; exact hqs)
    rw [hb.1]
    exact hb.2

/-- Instance of C12: the entry constructed with quantity `5` satisfies the
bound, and still does after `select(2)`, `select()`, `select()`, `select(5)`. -/
theorem selected_qty_bound_invariant_witness :
    ((0 : Int) ≤ 5 ∧
        0 ≤ (ctor ⟨7, 1, 15⟩ [] MenuEntryLevel.MEL_ITEM 5 0).selected_qty ∧
        (ctor ⟨7, 1, 15⟩ [] MenuEntryLevel.MEL_ITEM 5 0).selected_qty ≤
          (ctor ⟨7, 1, 15⟩ [] MenuEntryLevel.MEL_ITEM 5 0).quantity) ∧
      ((∀ q ∈ [(2 : Int), -1, -1, 5], q = select_default_qty ∨ (0 ≤ q ∧ q ≤ 5)) ∧
        0 ≤ ((ctor ⟨7, 1, 15⟩ [] MenuEntryLevel.MEL_ITEM 5 0).selects
          [2, -1, -1, 5]).selected_qty ∧
        ((ctor ⟨7, 1, 15⟩ [] MenuEntryLevel.MEL_ITEM 5 0).selects
          [2, -1, -1, 5]).selected_qty ≤
          ((ctor ⟨7, 1, 15⟩ [] MenuEntryLevel.MEL_ITEM 5 0).selects
            [2, -1, -1, 5]).quantity) :=
  ⟨⟨by decide,
      selected_qty_bound_invariant.1 ⟨7, 1, 15⟩ [] MenuEntryLevel.MEL_ITEM 5 0
        (by decide)⟩,
    ⟨by decide,
      selected_qty_bound_invariant.2.2 ⟨7, 1, 15⟩ [] MenuEntryLevel.MEL_ITEM 5 0
        [2, -1, -1, 5] (by decide) (by decide)⟩⟩

/-- Reading back a NUL-terminated buffer whose payload has no NUL byte gives
the payload. -/
theorem c_string_terminated (l : List Nat) (h : ∀ b ∈ l, b ≠ 0) :
    c_string (l ++ [0]) = l := by
  unfold c_string
  rw [List.takeWhile_append_of_pos (fun a ha => by simpa using h a ha)]
  simp

/-- A byte string without NUL byte is its own C string. -/
theorem c_str_of_no_nul (l : List Nat) (h : ∀ b ∈ l, b ≠ 0) : c_str l = l := by
  unfold c_str c_string
  rw [List.takeWhile_eq_self_iff]
  intro a ha
  simpa using h a ha

/-- The result of `get_text` on an item entry with a hotkey, in terms of the
buffer filled by `snprintf`. -/
theorem get_text_of_item_hotkey (e : MenuEntry) (k : Int) (rest : List Int)
    (hl : e.level = MenuEntryLevel.MEL_ITEM) (hh : e.hotkeys = k :: rest) :
    e.get_text = c_string (snprintf_c_s 300 k (c_str e.text)) := by
  obtain ⟨t, qn, sq, c, hs, l, d⟩ := e
  simp only at hl hh
  subst hl hh
  simp [get_text]

set_option maxRecDepth 100000 in
/-- C13 as stated fails: for the item entry with hotkey `'a'` and a text of
296 bytes `'x'`, `get_text()` returns 299 bytes, not the 300 bytes of the
hotkey, `" - "` and the text. -/
theorem get_text_long_text_cut :
    (ctor ⟨7, 1, 15⟩ (List.replicate 296 120) MenuEntryLevel.MEL_ITEM 1 97).level =
        MenuEntryLevel.MEL_ITEM ∧
      (ctor ⟨7, 1, 15⟩ (List.replicate 296 120) MenuEntryLevel.MEL_ITEM 1 97).hotkeys =
        [97] ∧
      (ctor ⟨7, 1, 15⟩ (List.replicate 296 120) MenuEntryLevel.MEL_ITEM 1
        97).get_text.length = 299 ∧
      (ctor ⟨7, 1, 15⟩ (List.replicate 296 120) MenuEntryLevel.MEL_ITEM 1 97).get_text ≠
        format_c 97 :: (menu_letter.codes " - " ++ List.replicate 296 120) := by
  decide

/-- C13 amended: for an item entry with at least one hotkey, whose hotkey
character (`hotkeys[0]` converted by `%c`) is not NUL and whose text has no NUL
byte, `get_text()` returns the first 299 bytes of the hotkey character followed
by `" - "` and the text; this is the whole of it when the text has at most 295
bytes. -/
theorem get_text_item_hotkey (e : MenuEntry) (k : Int) (rest : List Int)
    (hl : e.level = MenuEntryLevel.MEL_ITEM) (hh : e.hotkeys = k :: rest)
    (hk : format_c k ≠ 0) (ht : ∀ b ∈ e.text, b ≠ 0) :
    e.get_text = (format_c k :: (menu_letter.codes " - " ++ e.text)).take 299 ∧
      (e.text.length ≤ 295 →
        e.get_text = format_c k :: (menu_letter.codes " - " ++ e.text)) := by
  have hall : ∀ b ∈ format_c k :: (menu_letter.codes " - " ++ e.text), b ≠ 0 := by
    intro b hb
    rw [List.mem_cons, List.mem_append] at hb
    rcases hb with hb | hb | hb
    · rw [hb]; exact hk
    · have hc : menu_letter.codes " - " = [32, 45, 32] := by decide
      rw [hc] at hb
      simp only [List.mem_cons, List.mem_singleton, List.not_mem_nil, or_false] at hb
      omega
    · exact ht b hb
  have hmain : e.get_text =
      (format_c k :: (menu_letter.codes " - " ++ e.text)).take 299 := by
    rw [get_text_of_item_hotkey e k rest hl hh, c_str_of_no_nul e.text ht]
    exact c_string_terminated _ (fun b hb => hall b (List.mem_of_mem_take hb))
  refine ⟨hmain, fun hlen => ?_⟩
  rw [hmain]
  apply List.take_of_length_le
  have hc : (menu_letter.codes " - ").length = 3 := by decide
  rw [List.length_cons, List.length_append, hc]
  omega

/-- Instance of the amended C13: the item `"sword"` with hotkey `'a'` is shown as
`"a - sword"`. -/
theorem get_text_item_hotkey_witness :
    (ctor ⟨7, 1, 15⟩ (menu_letter.codes "sword") MenuEntryLevel.MEL_ITEM 1 97).level =
        MenuEntryLevel.MEL_ITEM ∧
      (ctor ⟨7, 1, 15⟩ (menu_letter.codes "sword") MenuEntryLevel.MEL_ITEM 1 97).hotkeys =
        97 :: [] ∧
      format_c 97 ≠ 0 ∧
      (∀ b ∈ (ctor ⟨7, 1, 15⟩ (menu_letter.codes "sword") MenuEntryLevel.MEL_ITEM 1
        97).text, b ≠ 0) ∧
      (ctor ⟨7, 1, 15⟩ (menu_letter.codes "sword") MenuEntryLevel.MEL_ITEM 1
        97).text.length ≤ 295 ∧
      (ctor ⟨7, 1, 15⟩ (menu_letter.codes "sword") MenuEntryLevel.MEL_ITEM 1 97).get_text =
        format_c 97 :: (menu_letter.codes " - " ++
          (ctor ⟨7, 1, 15⟩ (menu_letter.codes "sword") MenuEntryLevel.MEL_ITEM 1
            97).text) :=
  ⟨by decide, by decide, by decide, by decide, by decide,
    (get_text_item_hotkey
      (ctor ⟨7, 1, 15⟩ (menu_letter.codes "sword") MenuEntryLevel.MEL_ITEM 1 97) 97 []
      (by decide) (by decide) (by decide) (by decide)).2 (by decide)⟩

/-- C14 as stated fails: a title entry gets a prefix of two spaces, not none,
and an item entry without hotkey gets no prefix, not two spaces. -/
theorem get_text_indent_swapped :
    (ctor ⟨7, 1, 15⟩ (menu_letter.codes "T") MenuEntryLevel.MEL_TITLE 0 0).get_text =
        menu_letter.codes "  T" ∧
      (ctor ⟨7, 1, 15⟩ (menu_letter.codes "T") MenuEntryLevel.MEL_TITLE 0 0).get_text ≠
        (ctor ⟨7, 1, 15⟩ (menu_letter.codes "T") MenuEntryLevel.MEL_TITLE 0 0).text ∧
      (ctor ⟨7, 1, 15⟩ (menu_letter.codes "T") MenuEntryLevel.MEL_ITEM 0 0).hotkeys = [] ∧
      (ctor ⟨7, 1, 15⟩ (menu_letter.codes "T") MenuEntryLevel.MEL_ITEM 0 0).get_text =
        menu_letter.codes "T" ∧
      (ctor ⟨7, 1, 15⟩ (menu_letter.codes "T") MenuEntryLevel.MEL_ITEM 0 0).get_text ≠
        menu_letter.codes "  " ++
          (ctor ⟨7, 1, 15⟩ (menu_letter.codes "T") MenuEntryLevel.MEL_ITEM 0 0).text := by
  decide

/-- C14 amended: for an entry that is not an item with a hotkey, `get_text()`
returns the text with a level-dependent prefix: one space for a subtitle, no
prefix for an item (without hotkeys), and two spaces for a title (as for the
level `MEL_NONE`). -/
theorem get_text_by_level (e : MenuEntry)
    (h : ¬ (e.level = MenuEntryLevel.MEL_ITEM ∧ e.hotkeys ≠ [])) :
    (e.level = MenuEntryLevel.MEL_SUBTITLE →
        e.get_text = menu_letter.codes " " ++ e.text) ∧
      (e.level = MenuEntryLevel.MEL_ITEM → e.get_text = e.text) ∧
      (e.level = MenuEntryLevel.MEL_TITLE →
        e.get_text = menu_letter.codes "  " ++ e.text) ∧
      (e.level = MenuEntryLevel.MEL_NONE →
        e.get_text = menu_letter.codes "  " ++ e.text) := by
  have hcond : ¬ (e.level = MenuEntryLevel.MEL_ITEM ∧ e.hotkeys.length ≠ 0) := by
    intro hc
    exact h ⟨hc.1, fun hn => hc.2 (by rw [hn]; rfl)⟩
  have hget : e.get_text =
      (if e.level = MenuEntryLevel.MEL_SUBTITLE then menu_letter.codes " "
        else if e.level = MenuEntryLevel.MEL_ITEM then menu_letter.codes ""
        else menu_letter.codes "  ") ++ e.text := by
    unfold get_text
    rw [dif_neg hcond]
  refine ⟨fun hl => ?_, fun hl => ?_, fun hl => ?_, fun hl => ?_⟩ <;>
    rw [hget, hl] <;> rfl

/-- Instance of the amended C14: the subtitle `"Armour"` is shown as
`" Armour"`. -/
theorem get_text_by_level_witness :
    ¬ ((ctor ⟨7, 1, 15⟩ (menu_letter.codes "Armour") MenuEntryLevel.MEL_SUBTITLE 0
          0).level = MenuEntryLevel.MEL_ITEM ∧
        (ctor ⟨7, 1, 15⟩ (menu_letter.codes "Armour") MenuEntryLevel.MEL_SUBTITLE 0
          0).hotkeys ≠ []) ∧
      (ctor ⟨7, 1, 15⟩ (menu_letter.codes "Armour") MenuEntryLevel.MEL_SUBTITLE 0
        0).get_text =
        menu_letter.codes " " ++
          (ctor ⟨7, 1, 15⟩ (menu_letter.codes "Armour") MenuEntryLevel.MEL_SUBTITLE 0
            0).text :=
  ⟨by decide,
    (get_text_by_level
      (ctor ⟨7, 1, 15⟩ (menu_letter.codes "Armour") MenuEntryLevel.MEL_SUBTITLE 0 0)
      (by decide)).1 (by decide)⟩

/-- C15: the colour of a newly constructed entry depends on its level alone:
`LIGHTGREY` for an item, `BLUE` for a subtitle, `WHITE` for a title, whatever
the text, quantity and hotkey arguments. -/
theorem ctor_colour (cols : Colours) (txt : List Nat) (qty hotk : Int) :
    (ctor cols txt MenuEntryLevel.MEL_ITEM qty hotk).colour = cols.LIGHTGREY ∧
      (ctor cols txt MenuEntryLevel.MEL_SUBTITLE qty hotk).colour = cols.BLUE ∧
      (ctor cols txt MenuEntryLevel.MEL_TITLE qty hotk).colour = cols.WHITE ∧
      ∀ (lev : MenuEntryLevel) (txt1 : List Nat) (qty1 hotk1 : Int),
        (ctor cols txt lev qty hotk).colour = (ctor cols txt1 lev qty1 hotk1).colour := by
  have hcol : ∀ (lev : MenuEntryLevel) (t : List Nat) (q h : Int),
      (ctor cols t lev q h).colour =
        if lev = MenuEntryLevel.MEL_ITEM then cols.LIGHTGREY
        else if lev = MenuEntryLevel.MEL_SUBTITLE then cols.BLUE
        else cols.WHITE := by
    intro lev t q h
    unfold ctor
    by_cases hh : h ≠ 0
    · rw [if_pos hh]
    · rw [if_neg hh]
  refine ⟨?_, ?_, ?_, ?_⟩
  · rw [hcol]; rfl
  · rw [hcol]; rfl
  · rw [hcol]; rfl
  · intro lev txt1 qty1 hotk1
    rw [hcol, hcol]

/-- The constructor gives a hotkey list without duplicates and without `0`. -/
theorem ctor_hotkeys_clean (cols : Colours) (txt : List Nat)
    (lev : MenuEntryLevel) (qty hotk : Int) :
    (ctor cols txt lev qty hotk).hotkeys.Nodup ∧
      (0 : Int) ∉ (ctor cols txt lev qty hotk).hotkeys := by
  unfold ctor
  by_cases hh : hotk ≠ 0
  · rw [if_pos hh]
    refine ⟨by simp, ?_⟩
    simp only [List.nil_append, List.mem_singleton]
    exact fun h0 => hh h0.symm
  · rw [if_neg hh]
    simp

/-- One `add_hotkey` call keeps a hotkey list without duplicates and without
`0` in that state. -/
theorem add_hotkey_clean (e : MenuEntry) (key : Int)
    (hn : e.hotkeys.Nodup) (h0 : (0 : Int) ∉ e.hotkeys) :
    (e.add_hotkey key).hotkeys.Nodup ∧ (0 : Int) ∉ (e.add_hotkey key).hotkeys := by
  by_cases hk : key = 0 ∨ key ∈ e.hotkeys
  · rw [add_hotkey_hotkeys_of_skip e key hk]
    exact ⟨hn, h0⟩
  · rw [not_or] at hk
    rw [add_hotkey_hotkeys_of_new e key hk.1 hk.2]
    constructor
    · rw [List.nodup_append]
      refine ⟨hn, List.nodup_singleton key, ?_⟩
      intro a ha hb
      rw [List.mem_singleton] at hb
      exact hk.2 (hb ▸ ha)
    · rw [List.mem_append, List.mem_singleton]
      rintro (h | h)
      · exact h0 h
      · exact hk.1 h.symm

/-- A sequence of `add_hotkey` calls keeps a hotkey list without duplicates
and without `0` in that state. -/
theorem add_hotkeys_clean (keys : List Int) :
    ∀ e : MenuEntry, e.hotkeys.Nodup → (0 : Int) ∉ e.hotkeys →
      (e.add_hotkeys keys).hotkeys.Nodup ∧ (0 : Int) ∉ (e.add_hotkeys keys).hotkeys := by
  induction keys with
  | nil => intro e hn h0; exact ⟨hn, h0⟩
  | cons x xs ih =>
    intro e hn h0
    have hx := add_hotkey_clean e x hn h0
    exact ih (e.add_hotkey x) hx.1 hx.2

/-- One `add_hotkey` call keeps the previous hotkey list as a prefix. -/
theorem add_hotkey_extends_list (e : MenuEntry) (key : Int) :
    e.hotkeys <+: (e.add_hotkey key).hotkeys := by
  by_cases hk : key = 0 ∨ key ∈ e.hotkeys
  · exact (add_hotkey_hotkeys_of_skip e key hk).symm ▸ List.prefix_refl _
  · rw [not_or] at hk
    rw [add_hotkey_hotkeys_of_new e key hk.1 hk.2]
    exact List.prefix_append _ _

/-- C16: every entry obtained from the constructor, with any `hotk`, by a
sequence of `add_hotkey` calls has a hotkey list without duplicates and without
`0`; each `add_hotkey` keeps the previous list as a prefix of the new one; so a
primary hotkey, once there, is still the primary hotkey after later
additions. -/
theorem hotkeys_invariant (cols : Colours) (txt : List Nat) (lev : MenuEntryLevel)
    (qty hotk : Int) (keys : List Int) :
    ((ctor cols txt lev qty hotk).add_hotkeys keys).hotkeys.Nodup ∧
      (0 : Int) ∉ ((ctor cols txt lev qty hotk).add_hotkeys keys).hotkeys ∧
      (∀ (e : MenuEntry) (key : Int), e.hotkeys <+: (e.add_hotkey key).hotkeys) ∧
      (∀ (e : MenuEntry) (key p : Int), e.is_primary_hotkey p = true →
        (e.add_hotkey key).is_primary_hotkey p = true) ∧
      (∀ (e : MenuEntry) (more : List Int) (p : Int), e.is_primary_hotkey p = true →
        (e.add_hotkeys more).is_primary_hotkey p = true) := by
  obtain ⟨hn, h0⟩ := ctor_hotkeys_clean cols txt lev qty hotk
  obtain ⟨hn1, h01⟩ := add_hotkeys_clean keys _ hn h0
  have hne : ∀ (e : MenuEntry) (p : Int), e.is_primary_hotkey p = true →
      e.hotkeys ≠ [] := by
    intro e p hp hnil
    rw [is_primary_hotkey_iff_head, hnil] at hp
    exact absurd hp (by simp)
  refine ⟨hn1, h01, add_hotkey_extends_list, ?_, ?_⟩
  · intro e key p hp
    have hh := (add_hotkey_head_of_ne_nil e key (hne e p hp)).2
    rw [is_primary_hotkey_iff_head] at hp ⊢
    rw [hh, hp]
  · intro e more p hp
    have hh := add_hotkeys_head_of_ne_nil more e (hne e p hp)
    rw [is_primary_hotkey_iff_head] at hp ⊢
    rw [hh, hp]

/-- Instance of C16: on the entry constructed with hotkey `'a'`, the primary
hotkey `'a'` stays primary after `add_hotkey('b')`, `add_hotkey('a')`,
`add_hotkey(0)`. -/
theorem hotkeys_invariant_witness :
    (ctor ⟨7, 1, 15⟩ [] MenuEntryLevel.MEL_ITEM 1 97).is_primary_hotkey 97 = true ∧
      ((ctor ⟨7, 1, 15⟩ [] MenuEntryLevel.MEL_ITEM 1 97).add_hotkeys
        [98, 97, 0]).is_primary_hotkey 97 = true ∧
      ((ctor ⟨7, 1, 15⟩ [] MenuEntryLevel.MEL_ITEM 1 97).add_hotkeys
        [98, 97, 0]).hotkeys.Nodup :=
  ⟨by decide,
    (hotkeys_invariant ⟨7, 1, 15⟩ [] MenuEntryLevel.MEL_ITEM 1 97 [98, 97, 0]).2.2.2.2
      (ctor ⟨7, 1, 15⟩ [] MenuEntryLevel.MEL_ITEM 1 97) [98, 97, 0] 97 (by decide),
    (hotkeys_invariant ⟨7, 1, 15⟩ [] MenuEntryLevel.MEL_ITEM 1 97 [98, 97, 0]).1⟩

/-- Two Boolean search results agree when the memberships they decide do. -/
theorem is_hotkey_congr (e1 e2 : MenuEntry) (j : Int)
    (h : j ∈ e1.hotkeys ↔ j ∈ e2.hotkeys) : e1.is_hotkey j = e2.is_hotkey j := by
  rw [Bool.eq_iff_iff, is_hotkey_iff_mem, is_hotkey_iff_mem]
  exact h

/-- C17: for a key `k != 0`, `is_hotkey(k)` is true after `add_hotkey(k)`, and
for every other key `j`, `is_hotkey(j)` after the call equals `is_hotkey(j)`
before it; for `k == 0`, `is_hotkey` is unchanged for every key. -/
theorem is_hotkey_after_add_hotkey (e : MenuEntry) (k : Int) :
    (k ≠ 0 → (e.add_hotkey k).is_hotkey k = true) ∧
      (k ≠ 0 → ∀ j : Int, j ≠ k → (e.add_hotkey k).is_hotkey j = e.is_hotkey j) ∧
      (k = 0 → ∀ j : Int, (e.add_hotkey k).is_hotkey j = e.is_hotkey j) := by
  refine ⟨fun hk => ?_, fun hk j hj => ?_, fun hk j => ?_⟩
  · rw [is_hotkey_iff_mem]
    by_cases hm : k ∈ e.hotkeys
    · rw [add_hotkey_hotkeys_of_skip e k (Or.inr hm)]
      exact hm
    · rw [add_hotkey_hotkeys_of_new e k hk hm]
      simp
  · apply is_hotkey_congr
    by_cases hm : k ∈ e.hotkeys
    · rw [add_hotkey_hotkeys_of_skip e k (Or.inr hm)]
    · rw [add_hotkey_hotkeys_of_new e k hk hm, List.mem_append, List.mem_singleton]
      exact ⟨fun h => h.resolve_right hj, Or.inl⟩
  · apply is_hotkey_congr
    rw [add_hotkey_hotkeys_of_skip e k (Or.inl hk)]

/-- Instance of C17 on the entry with hotkeys `['a']`: after `add_hotkey('b')`,
`'b'` is a hotkey, `'a'` still is and `'c'` still is not. -/
theorem is_hotkey_after_add_hotkey_witness :
    (98 : Int) ≠ 0 ∧
      ((ctor ⟨7, 1, 15⟩ [] MenuEntryLevel.MEL_ITEM 1 97).add_hotkey 98).is_hotkey 98 =
        true ∧
      ((97 : Int) ≠ 98 ∧
        ((ctor ⟨7, 1, 15⟩ [] MenuEntryLevel.MEL_ITEM 1 97).add_hotkey 98).is_hotkey 97 =
          (ctor ⟨7, 1, 15⟩ [] MenuEntryLevel.MEL_ITEM 1 97).is_hotkey 97) ∧
      ((0 : Int) = 0 ∧
        ((ctor ⟨7, 1, 15⟩ [] MenuEntryLevel.MEL_ITEM 1 97).add_hotkey 0).is_hotkey 99 =
          (ctor ⟨7, 1, 15⟩ [] MenuEntryLevel.MEL_ITEM 1 97).is_hotkey 99) :=
  ⟨by decide,
    (is_hotkey_after_add_hotkey (ctor ⟨7, 1, 15⟩ [] MenuEntryLevel.MEL_ITEM 1 97) 98).1
      (by decide),
    ⟨by decide,
      (is_hotkey_after_add_hotkey (ctor ⟨7, 1, 15⟩ [] MenuEntryLevel.MEL_ITEM 1 97)
        98).2.1 (by decide) 97 (by decide)⟩,
    ⟨rfl,
      (is_hotkey_after_add_hotkey (ctor ⟨7, 1, 15⟩ [] MenuEntryLevel.MEL_ITEM 1 97)
        0).2.2 rfl 99⟩⟩

/-- C18: each mutator writes only its own field.  `select(q)` leaves `text`,
`quantity`, `colour`, `hotkeys`, `level` and `data` unchanged; `add_hotkey(k)`
leaves `text`, `quantity`, `selected_qty`, `colour`, `level` and `data`
unchanged. -/
theorem mutators_frame (e : MenuEntry) (q k : Int) :
    ((e.select q).text = e.text ∧ (e.select q).quantity = e.quantity ∧
        (e.select q).colour = e.colour ∧ (e.select q).hotkeys = e.hotkeys ∧
        (e.select q).level = e.level ∧ (e.select q).data = e.data) ∧
      ((e.add_hotkey k).text = e.text ∧ (e.add_hotkey k).quantity = e.quantity ∧
        (e.add_hotkey k).selected_qty = e.selected_qty ∧
        (e.add_hotkey k).colour = e.colour ∧ (e.add_hotkey k).level = e.level ∧
        (e.add_hotkey k).data = e.data) := by
  constructor
  · unfold select
    split_ifs <;> exact ⟨rfl, rfl, rfl, rfl, rfl, rfl⟩
  · unfold add_hotkey
    split_ifs <;> exact ⟨rfl, rfl, rfl, rfl, rfl, rfl⟩

end MenuEntry

end Menu
